import Mathlib

/-!
# Shallow embedding of the LdapTest directory operation engine

This file embeds, in Lean, the core directory-operation functions of the
LdapTest repository (package `ldap`): the Active-Directory password encoder,
the password-update operation, DN-hierarchy creation (`EnsureDNExists`,
`CreateDN`), the move/rename operation (`MoveUser`), the bind-retry loop
(`BindWithRetry`) and the group-membership replacement logic
(`HandleGroupMembership`, `RemoveUserFromAllGroups`, `AddUserToGroup`,
`SearchUser`).

Go strings are modelled as lists: a password is its list of runes
(Unicode code points, `List Nat`), attribute values and wire bytes are
`List Nat`, and a distinguished name is its list of comma-separated
components (`List String`), exactly the decomposition the Go code itself
uses (`strings.Split(dn, ",")` / `strings.SplitN(dn, ",", 2)`).

The LDAP server side is modelled explicitly where a function's behaviour
depends on it: a deterministic in-memory directory for the DN-tree
operations, and oracle-style failure injection where the Go code's error
handling is what is being verified.
-/

namespace LdapTest

/-! ## UTF-16 encoding (Go `unicode/utf16`)

`EncodePassword` calls `utf16.Encode([]rune(quotedPassword))`.  We model
Go's `utf16.Encode` rune by rune.  Go emits a single code unit for a
value below `0x10000` that is not a surrogate, a surrogate pair for
values in `[0x10000, 0x10FFFF]`, and the replacement character `0xFFFD`
otherwise. -/

namespace UTF16

/-- One step of Go `utf16.Encode`: the code-unit list for a single rune.
Go computes the surrogate pair as `surr1 + (r>>10)&0x3ff` and
`surr2 + r&0x3ff` with `r = v - 0x10000 < 2^20`; on that range the
shift/mask arithmetic coincides with the division/remainder used here. -/
def encodeRune (v : Nat) : List Nat :=
  if v < 0xD800 ∨ (0xE000 ≤ v ∧ v < 0x10000) then [v]
  else if 0x10000 ≤ v ∧ v < 0x110000 then
    [0xD800 + (v - 0x10000) / 0x400, 0xDC00 + (v - 0x10000) % 0x400]
  else [0xFFFD]

/-- Go `utf16.Encode`: concatenation of the per-rune code-unit lists. -/
def encode (s : List Nat) : List Nat :=
  (s.map encodeRune).flatten

end UTF16

/-- A Go rune obtained from a valid Go string via `[]rune(s)`: a Unicode
scalar value (no surrogates, below `0x110000`). -/
def ValidRune (c : Nat) : Prop :=
  c < 0xD800 ∨ (0xE000 ≤ c ∧ c < 0x110000)

instance (c : Nat) : Decidable (ValidRune c) := by
  unfold ValidRune; infer_instance

/-- The byte-building loop of `EncodePassword`:
`bytes[i*2] = byte(char); bytes[i*2+1] = byte(char >> 8)` — for each
code unit, the low byte followed by the high byte. -/
def utf16LEBytes (units : List Nat) : List Nat :=
  (units.map (fun c => [c % 256, c / 256 % 256])).flatten

/-- `EncodePassword` (src/unnamed/part_000, lines 12–24): wraps the
password in double quotes (`'"'` is code point 34), converts to runes,
UTF-16-encodes and serialises little-endian. -/
def EncodePassword (password : List Nat) : List Nat :=
  utf16LEBytes (UTF16.encode (34 :: (password ++ [34])))

/-- The encoding rule in the spec's words: wrap the password in a
literal pair of double-quote characters, then encode the quoted string
as UTF-16 little-endian code units — 2 bytes per code unit, low byte
first (each 16-bit unit `u` becomes its low byte `u % 256` followed by
its high byte `u / 256`), with no byte-order mark prepended. -/
def specEncodePassword (p : List Nat) : List Nat :=
  ((34 :: (p ++ [34])).map UTF16.encodeRune).flatten.flatMap
    (fun u => [u % 256, u / 256])

/-! Decoding, used to state the round-trip property: pair the bytes into
little-endian code units, then combine surrogate pairs back into code
points. -/

/-- Reassemble little-endian byte pairs into 16-bit code units. -/
def bytesToUnits : List Nat → List Nat
  | b0 :: b1 :: rest => (b0 + 256 * b1) :: bytesToUnits rest
  | _ => []

/-- UTF-16 decoding of a code-unit sequence: a high surrogate followed
by a low surrogate yields the supplementary code point, anything else
passes through (unpaired surrogates become the replacement character). -/
def utf16DecodeUnits : List Nat → List Nat
  | [] => []
  | [u] => if 0xD800 ≤ u ∧ u < 0xDC00 then [0xFFFD] else [u]
  | u :: v :: rest =>
    if 0xD800 ≤ u ∧ u < 0xDC00 then
      if 0xDC00 ≤ v ∧ v < 0xE000 then
        (0x10000 + ((u - 0xD800) * 0x400 + (v - 0xDC00))) :: utf16DecodeUnits rest
      else 0xFFFD :: utf16DecodeUnits (v :: rest)
    else u :: utf16DecodeUnits (v :: rest)

/-- Strip the single leading and trailing characters (the two quotes). -/
def stripQuotes (l : List Nat) : List Nat :=
  (l.drop 1).dropLast

/-! ### Supporting lemmas for the password encoder -/

theorem encodeRune_lt (v u : Nat) (hu : u ∈ UTF16.encodeRune v) : u < 0x10000 := by
  unfold UTF16.encodeRune at hu
  by_cases h1 : v < 0xD800 ∨ (0xE000 ≤ v ∧ v < 0x10000)
  · rw [if_pos h1] at hu
    simp only [List.mem_singleton] at hu
    omega
  · rw [if_neg h1] at hu
    by_cases h2 : 0x10000 ≤ v ∧ v < 0x110000
    · rw [if_pos h2] at hu
      simp only [List.mem_cons, List.mem_singleton, List.not_mem_nil, or_false] at hu
      rcases hu with hu | hu <;> omega
    · rw [if_neg h2] at hu
      simp only [List.mem_singleton] at hu
      omega

theorem encode_cons (c : Nat) (s : List Nat) :
    UTF16.encode (c :: s) = UTF16.encodeRune c ++ UTF16.encode s := by
  simp [UTF16.encode]

theorem bytesToUnits_utf16LEBytes (units : List Nat)
    (h : ∀ u ∈ units, u < 0x10000) :
    bytesToUnits (utf16LEBytes units) = units := by
  induction units with
  | nil => rfl
  | cons c rest ih =>
    have hc : c < 0x10000 := h c (List.mem_cons_self _ _)
    have key : c % 256 + 256 * (c / 256 % 256) = c := by omega
    have hrest := ih (fun u hu => h u (List.mem_cons_of_mem _ hu))
    calc bytesToUnits (utf16LEBytes (c :: rest))
        = bytesToUnits (c % 256 :: c / 256 % 256 :: utf16LEBytes rest) := by
          simp [utf16LEBytes]
      _ = (c % 256 + 256 * (c / 256 % 256)) :: bytesToUnits (utf16LEBytes rest) := rfl
      _ = c :: rest := by rw [key, hrest]

theorem decode_cons_notHigh (u : Nat) (l : List Nat)
    (h : ¬(0xD800 ≤ u ∧ u < 0xDC00)) :
    utf16DecodeUnits (u :: l) = u :: utf16DecodeUnits l := by
  cases l with
  | nil => simp [utf16DecodeUnits, h]
  | cons v rest => simp [utf16DecodeUnits, h]

theorem decode_cons_pair (u v : Nat) (l : List Nat)
    (hu : 0xD800 ≤ u ∧ u < 0xDC00) (hv : 0xDC00 ≤ v ∧ v < 0xE000) :
    utf16DecodeUnits (u :: v :: l) =
      (0x10000 + ((u - 0xD800) * 0x400 + (v - 0xDC00))) :: utf16DecodeUnits l := by
  simp [utf16DecodeUnits, hu, hv]

set_option maxRecDepth 4096 in
theorem utf16DecodeUnits_encode (s : List Nat) (h : ∀ c ∈ s, ValidRune c) :
    utf16DecodeUnits (UTF16.encode s) = s := by
  induction s with
  | nil => rfl
  | cons c rest ih =>
    have hc : ValidRune c := h c (List.mem_cons_self _ _)
    have hrest := ih (fun x hx => h x (List.mem_cons_of_mem _ hx))
    rw [encode_cons]
    rcases hc with hlo | ⟨hge, hlt⟩
    · -- below the surrogate range: a single unit, passed through
      have henc : UTF16.encodeRune c = [c] := by
        unfold UTF16.encodeRune
        rw [if_pos (Or.inl hlo)]
      rw [henc, List.cons_append, List.nil_append,
        decode_cons_notHigh c _ (by omega), hrest]
    · by_cases hbmp : c < 0x10000
      · -- BMP above the surrogates: a single unit, passed through
        have henc : UTF16.encodeRune c = [c] := by
          unfold UTF16.encodeRune
          rw [if_pos (Or.inr ⟨hge, hbmp⟩)]
        rw [henc, List.cons_append, List.nil_append,
          decode_cons_notHigh c _ (by omega), hrest]
      · -- supplementary plane: surrogate pair, recombined
        have henc : UTF16.encodeRune c =
            [0xD800 + (c - 0x10000) / 0x400, 0xDC00 + (c - 0x10000) % 0x400] := by
          unfold UTF16.encodeRune
          rw [if_neg (by omega), if_pos ⟨by omega, hlt⟩]
        have hdiv : (c - 0x10000) / 0x400 < 0x400 := by omega
        have hmod : (c - 0x10000) % 0x400 < 0x400 := by omega
        rw [henc, List.cons_append, List.cons_append, List.nil_append,
          decode_cons_pair _ _ _ (by omega) (by omega), hrest]
        refine congrArg (fun x => x :: rest) ?_
        omega

theorem encode_units_lt (q : List Nat) :
    ∀ u ∈ UTF16.encode q, u < 0x10000 := by
  intro u hu
  unfold UTF16.encode at hu
  rw [List.mem_flatten] at hu
  obtain ⟨l, hl, hul⟩ := hu
  rw [List.mem_map] at hl
  obtain ⟨c, _, rfl⟩ := hl
  exact encodeRune_lt c u hul

/-- **C1**: For every password string `p`, `EncodePassword(p)` returns exactly
the byte sequence obtained by wrapping `p` in a literal pair of double-quote
characters and then encoding the quoted string as UTF-16 little-endian code
units — 2 bytes per code unit, low byte first, with no byte-order mark
prepended (the output starts with the two bytes of `'"'`, not a BOM). -/
theorem encodePassword_is_quoted_utf16le (p : List Nat) :
    EncodePassword p = specEncodePassword p ∧ (EncodePassword p).take 2 = [34, 0] := by
  constructor
  · unfold EncodePassword specEncodePassword utf16LEBytes UTF16.encode
    rw [List.flatMap_def]
    congr 1
    apply List.map_congr_left
    intro u hu
    have hlt : u < 0x10000 := encode_units_lt (34 :: (p ++ [34])) u hu
    rw [Nat.mod_eq_of_lt (show u / 256 < 256 by omega)]
  · have h34 : UTF16.encodeRune 34 = [34] := by decide
    rw [EncodePassword, encode_cons, h34]
    simp [utf16LEBytes]

/-- **C7**: Decoding the byte sequence `EncodePassword(p)` — interpreting it
as UTF-16 little-endian code units and stripping the single leading and
trailing double-quote characters — recovers exactly the original string `p`
(for `p` a list of Unicode scalar values, as produced by Go's `[]rune`). -/
theorem encodePassword_roundtrip (p : List Nat) (h : ∀ c ∈ p, ValidRune c) :
    utf16DecodeUnits (bytesToUnits (EncodePassword p)) = 34 :: (p ++ [34]) ∧
    stripQuotes (utf16DecodeUnits (bytesToUnits (EncodePassword p))) = p := by
  have hq : ∀ c ∈ 34 :: (p ++ [34]), ValidRune c := by
    intro c hc
    rcases List.mem_cons.mp hc with rfl | hc
    · left; omega
    · rcases List.mem_append.mp hc with hc | hc
      · exact h c hc
      · simp only [List.mem_singleton] at hc
        subst hc
        left; omega
  have hdec : utf16DecodeUnits (bytesToUnits (EncodePassword p)) = 34 :: (p ++ [34]) := by
    rw [EncodePassword, bytesToUnits_utf16LEBytes _ (encode_units_lt _),
      utf16DecodeUnits_encode _ hq]
  refine ⟨hdec, ?_⟩
  rw [hdec]
  simp [stripQuotes]

/-- Witness for C7 at the concrete password `"h𐐷"` (runes `[104, 66615]`,
one BMP character and one surrogate-pair character). -/
theorem encodePassword_roundtrip_witness :
    (∀ c ∈ [104, 66615], ValidRune c) ∧
    stripQuotes (utf16DecodeUnits (bytesToUnits (EncodePassword [104, 66615]))) =
      [104, 66615] :=
  ⟨by decide, (encodePassword_roundtrip [104, 66615] (by decide)).2⟩

/-! ## Connection manager: `BindWithRetry` (src/ldap/client.go, lines 111–138)

`BindWithRetry` runs `for attempt := 1; attempt <= 3; attempt++`.  Each
iteration first calls `ensureConnection` (on failure: record the error and
`continue`), then `conn.Bind` (on failure: record the error; if it is an
`*ldap.Error` with result code 200 — go-ldap's `ErrorNetwork` — close the
connection and `continue`; otherwise return the error at once).  After the
loop it returns a fresh error wrapping the last recorded error's message.
The environment is modelled as a script assigning each attempt number the
outcome the network produces on that attempt. -/

/-- A Go error as the retry loop inspects it: a `*ldap.Error` carrying a
result code, or any other error value. -/
inductive GoLdapError
  | ldapErr (resultCode : Nat) (msg : String)
  | otherErr (msg : String)
deriving DecidableEq

/-- `err.Error()`. -/
def GoLdapError.message : GoLdapError → String
  | .ldapErr _ m => m
  | .otherErr m => m

/-- The type-assertion-and-code test in the loop body:
`if ldapErr, ok := err.(*ldap.Error); ok && ldapErr.ResultCode == 200`. -/
def isNetworkError : GoLdapError → Bool
  | .ldapErr code _ => code == 200
  | .otherErr _ => false

/-- What one iteration of the loop observes: `ensureConnection` failing,
`conn.Bind` failing, or the bind succeeding. -/
inductive AttemptOutcome
  | connErr (e : GoLdapError)
  | bindErr (e : GoLdapError)
  | ok
deriving DecidableEq

/-- An outcome on which the Go loop `continue`s to the next attempt:
a connection failure, or a bind failure classified as network (code 200). -/
def AttemptOutcome.isRetried : AttemptOutcome → Bool
  | .connErr _ => true
  | .bindErr e => isNetworkError e
  | .ok => false

/-- The error recorded in `lastErr` by an attempt, if any. -/
def AttemptOutcome.errOf : AttemptOutcome → Option GoLdapError
  | .connErr e => some e
  | .bindErr e => some e
  | .ok => none

/-- What `BindWithRetry` returns. -/
inductive BindRetryResult
  | success
  | failure (e : GoLdapError)
deriving DecidableEq

/-- The retry loop, recursing on the number of attempts still allowed
(`remaining` starts at `maxRetries = 3`); `attempt` is the 1-based index of
the next attempt and `lastErr` the error recorded so far.  Returns the Go
function's result paired with the number of attempts actually performed. -/
def bindRetryLoop (script : Nat → AttemptOutcome) :
    Nat → Nat → Option GoLdapError → BindRetryResult × Nat
  | attempt, 0, lastErr =>
    (.failure (.otherErr ("绑定失败，已重试3次: " ++
      (lastErr.map GoLdapError.message).getD "")), attempt - 1)
  | attempt, r + 1, _ =>
    match script attempt with
    | .connErr e => bindRetryLoop script (attempt + 1) r (some e)
    | .bindErr e =>
      if isNetworkError e then bindRetryLoop script (attempt + 1) r (some e)
      else (.failure e, attempt)
    | .ok => (.success, attempt)

/-- `BindWithRetry` (src/ldap/client.go): the loop entered at attempt 1 with
`maxRetries = 3` and no recorded error. -/
def BindWithRetry (script : Nat → AttemptOutcome) : BindRetryResult × Nat :=
  bindRetryLoop script 1 3 none

theorem bindRetryLoop_attempts_le (script : Nat → AttemptOutcome) :
    ∀ r a last, (bindRetryLoop script a r last).2 ≤ a + r - 1 := by
  intro r
  induction r with
  | zero =>
    intro a last
    simp [bindRetryLoop]
  | succ r ih =>
    intro a last
    rw [bindRetryLoop]
    cases script a with
    | connErr e =>
      simp only
      calc (bindRetryLoop script (a + 1) r (some e)).2 ≤ a + 1 + r - 1 := ih _ _
        _ = a + (r + 1) - 1 := by omega
    | bindErr e =>
      simp only
      by_cases hn : isNetworkError e
      · rw [if_pos hn]
        calc (bindRetryLoop script (a + 1) r (some e)).2 ≤ a + 1 + r - 1 := ih _ _
          _ = a + (r + 1) - 1 := by omega
      · rw [if_neg hn]
        simp
    | ok =>
      simp

theorem bindRetryLoop_retried (script : Nat → AttemptOutcome) :
    ∀ r a last j, a ≤ j → j < (bindRetryLoop script a r last).2 →
      (script j).isRetried = true := by
  intro r
  induction r with
  | zero =>
    intro a last j haj hj
    simp [bindRetryLoop] at hj
    omega
  | succ r ih =>
    intro a last j haj hj
    rw [bindRetryLoop] at hj
    rcases hs : script a with e | e | _
    · rw [hs] at hj
      simp only at hj
      rcases Nat.eq_or_lt_of_le haj with rfl | hlt
      · rw [hs]; rfl
      · exact ih _ _ j hlt hj
    · rw [hs] at hj
      simp only at hj
      by_cases hn : isNetworkError e
      · rw [if_pos hn] at hj
        rcases Nat.eq_or_lt_of_le haj with rfl | hlt
        · rw [hs]; simp [AttemptOutcome.isRetried, hn]
        · exact ih _ _ j hlt hj
      · rw [if_neg hn] at hj
        simp at hj
        omega
    · rw [hs] at hj
      simp at hj
      omega

theorem bindRetryLoop_immediate (script : Nat → AttemptOutcome)
    (e : GoLdapError) :
    ∀ r a last k, a ≤ k → k < a + r →
      (∀ j, a ≤ j → j < k → (script j).isRetried = true) →
      script k = .bindErr e → isNetworkError e = false →
      bindRetryLoop script a r last = (.failure e, k) := by
  intro r
  induction r with
  | zero =>
    intro a last k hak hk _ _ _
    omega
  | succ r ih =>
    intro a last k hak hk hprev hsk hnet
    rcases Nat.eq_or_lt_of_le hak with rfl | hlt
    · rw [bindRetryLoop, hsk]
      simp [hnet]
    · have hra : (script a).isRetried = true := hprev a le_rfl hlt
      rw [bindRetryLoop]
      rcases hs : script a with e' | e' | _
      · exact ih (a + 1) (some e') k hlt (by omega)
          (fun j hj1 hj2 => hprev j (by omega) hj2) hsk hnet
      · rw [hs] at hra
        simp only [AttemptOutcome.isRetried] at hra
        simp only [hra, if_pos]
        exact ih (a + 1) (some e') k hlt (by omega)
          (fun j hj1 hj2 => hprev j (by omega) hj2) hsk hnet
      · rw [hs] at hra
        simp [AttemptOutcome.isRetried] at hra

theorem bindRetryLoop_success (script : Nat → AttemptOutcome) :
    ∀ r a last k, a ≤ k → k < a + r →
      (∀ j, a ≤ j → j < k → (script j).isRetried = true) →
      script k = .ok →
      bindRetryLoop script a r last = (.success, k) := by
  intro r
  induction r with
  | zero =>
    intro a last k hak hk _ _
    omega
  | succ r ih =>
    intro a last k hak hk hprev hsk
    rcases Nat.eq_or_lt_of_le hak with rfl | hlt
    · rw [bindRetryLoop, hsk]
    · have hra : (script a).isRetried = true := hprev a le_rfl hlt
      rw [bindRetryLoop]
      rcases hs : script a with e' | e' | _
      · exact ih (a + 1) (some e') k hlt (by omega)
          (fun j hj1 hj2 => hprev j (by omega) hj2) hsk
      · rw [hs] at hra
        simp only [AttemptOutcome.isRetried] at hra
        simp only [hra, if_pos]
        exact ih (a + 1) (some e') k hlt (by omega)
          (fun j hj1 hj2 => hprev j (by omega) hj2) hsk
      · rw [hs] at hra
        simp [AttemptOutcome.isRetried] at hra

theorem bindRetry_exhausted (script : Nat → AttemptOutcome)
    (h : ∀ j, 1 ≤ j → j ≤ 3 → (script j).isRetried = true) :
    BindWithRetry script =
      (.failure (.otherErr ("绑定失败，已重试3次: " ++
        (((script 3).errOf).map GoLdapError.message).getD "")), 3) := by
  have h1 := h 1 (by omega) (by omega)
  have h2 := h 2 (by omega) (by omega)
  have h3 := h 3 (by omega) (by omega)
  unfold BindWithRetry
  rcases hs1 : script 1 with e1 | e1 | _ <;> rw [hs1] at h1 <;>
    simp only [AttemptOutcome.isRetried] at h1
  · rcases hs2 : script 2 with e2 | e2 | _ <;> rw [hs2] at h2 <;>
      simp only [AttemptOutcome.isRetried] at h2
    · rcases hs3 : script 3 with e3 | e3 | _ <;> rw [hs3] at h3 <;>
        simp only [AttemptOutcome.isRetried] at h3
      · simp [bindRetryLoop, hs1, hs2, hs3, AttemptOutcome.errOf,
          GoLdapError.message]
      · simp [bindRetryLoop, hs1, hs2, hs3, h3, AttemptOutcome.errOf,
          GoLdapError.message]
      · exact absurd h3 (by simp)
    · rcases hs3 : script 3 with e3 | e3 | _ <;> rw [hs3] at h3 <;>
        simp only [AttemptOutcome.isRetried] at h3
      · simp [bindRetryLoop, hs1, hs2, hs3, h2, AttemptOutcome.errOf,
          GoLdapError.message]
      · simp [bindRetryLoop, hs1, hs2, hs3, h2, h3, AttemptOutcome.errOf,
          GoLdapError.message]
      · exact absurd h3 (by simp)
    · exact absurd h2 (by simp)
  · rcases hs2 : script 2 with e2 | e2 | _ <;> rw [hs2] at h2 <;>
      simp only [AttemptOutcome.isRetried] at h2
    · rcases hs3 : script 3 with e3 | e3 | _ <;> rw [hs3] at h3 <;>
        simp only [AttemptOutcome.isRetried] at h3
      · simp [bindRetryLoop, hs1, hs2, hs3, h1, AttemptOutcome.errOf,
          GoLdapError.message]
      · simp [bindRetryLoop, hs1, hs2, hs3, h1, h3, AttemptOutcome.errOf,
          GoLdapError.message]
      · exact absurd h3 (by simp)
    · rcases hs3 : script 3 with e3 | e3 | _ <;> rw [hs3] at h3 <;>
        simp only [AttemptOutcome.isRetried] at h3
      · simp [bindRetryLoop, hs1, hs2, hs3, h1, h2, AttemptOutcome.errOf,
          GoLdapError.message]
      · simp [bindRetryLoop, hs1, hs2, hs3, h1, h2, h3, AttemptOutcome.errOf,
          GoLdapError.message]
      · exact absurd h3 (by simp)
    · exact absurd h2 (by simp)
  · exact absurd h1 (by simp)

/-- **C9**: `BindWithRetry` attempts the connect-and-bind cycle at most 3
times; every attempt that is followed by another one failed with a retried
(network-classified) outcome, so a bind failure whose result code is not 200
is returned immediately with no further retry; and when all 3 attempts fail
with retried outcomes, the last error's message is surfaced to the caller. -/
theorem bindWithRetry_policy (script : Nat → AttemptOutcome) :
    (BindWithRetry script).2 ≤ 3 ∧
    (∀ j, 1 ≤ j → j < (BindWithRetry script).2 → (script j).isRetried = true) ∧
    (∀ k e, 1 ≤ k → k ≤ 3 →
      (∀ j, 1 ≤ j → j < k → (script j).isRetried = true) →
      script k = .bindErr e → isNetworkError e = false →
      BindWithRetry script = (.failure e, k)) ∧
    ((∀ j, 1 ≤ j → j ≤ 3 → (script j).isRetried = true) →
      BindWithRetry script =
        (.failure (.otherErr ("绑定失败，已重试3次: " ++
          (((script 3).errOf).map GoLdapError.message).getD "")), 3)) := by
  refine ⟨?_, ?_, ?_, ?_⟩
  · have := bindRetryLoop_attempts_le script 3 1 none
    simpa [BindWithRetry] using this
  · intro j hj1 hj2
    exact bindRetryLoop_retried script 3 1 none j hj1 hj2
  · intro k e hk1 hk3 hprev hsk hnet
    exact bindRetryLoop_immediate script e 3 1 none k hk1 (by omega) hprev hsk hnet
  · exact bindRetry_exhausted script

/-- Witness for C9: a script whose first attempt is a connection failure and
whose second attempt fails the bind with result code 49 (invalid
credentials).  The loop retries the connection failure, then returns the
code-49 error immediately: 2 attempts, error surfaced verbatim. -/
theorem bindWithRetry_policy_witness :
    BindWithRetry (fun k => if k = 1 then .connErr (.otherErr "dial tcp: refused")
      else .bindErr (.ldapErr 49 "invalid credentials")) =
      (.failure (.ldapErr 49 "invalid credentials"), 2) := by
  exact (bindWithRetry_policy _).2.2.1 2 (.ldapErr 49 "invalid credentials")
    (by omega) (by omega)
    (by intro j hj1 hj2
        have : j = 1 := by omega
        subst this
        decide)
    (by decide) (by decide)

/-! ## Entity provisioner: `UpdateUserPassword` (src/ldap/operations.go, 216–248)

The function opens a *fresh* connection for the password update:

```
tlsConfig := &tls.Config{InsecureSkipVerify: true}
updateConn, err := ldap.DialURL(fmt.Sprintf("ldap://%s:%d", client.Host, client.Port),
                                ldap.DialWithTLSConfig(tlsConfig))
```

then binds as the administrator and issues one modify request replacing
`unicodePwd` (the encoded password) and `userAccountControl` (`"512"`).
go-ldap's `DialURL` performs a TLS handshake only for the `ldaps` URL
scheme; for the `ldap` scheme it opens a plain TCP connection and the
`DialWithTLSConfig` option is ignored.  The model records each wire
action as an event, with the dial event carrying the URL scheme used. -/

/-- The fields of `LDAPClient` (src/ldap/client.go, 31–41) that the
operations modelled here read. -/
structure LDAPClient where
  Host : String
  Port : Nat
  BindDN : String
  BindPassword : String
  isSSLMode : Bool
deriving DecidableEq

/-- One `Replace` change of an LDAP modify request; attribute values are
byte strings. -/
structure ReplaceOp where
  attr : String
  vals : List (List Nat)
deriving DecidableEq

/-- An LDAP modify request as built by `ldap.NewModifyRequest` +
`Replace` calls. -/
structure ModifyRequest where
  dn : String
  replaces : List ReplaceOp
deriving DecidableEq

/-- A wire-level action performed by `UpdateUserPassword`.  `dial` records
the URL scheme passed to `ldap.DialURL` and whether a
`DialWithTLSConfig` option was supplied. -/
inductive WireEvent
  | dial (scheme : String) (host : String) (port : Nat) (withTLSConfigOpt : Bool)
  | bind (dn : String) (password : String)
  | modify (req : ModifyRequest)
deriving DecidableEq

/-- go-ldap `DialURL` semantics: the connection is TLS-secured exactly when
the URL scheme is `ldaps`; for `ldap` the transport is plaintext TCP
regardless of any `DialWithTLSConfig` option. -/
def dialUsesTLS (scheme : String) : Bool :=
  scheme == "ldaps"

/-- Failure injection for the three fallible steps of
`UpdateUserPassword`. -/
structure PwOracle where
  dialErr : Option String
  bindErr : Option String
  modifyErr : Option String
deriving DecidableEq

/-- How `UpdateUserPassword` returns: success, or the error of the step
that failed. -/
inductive PwResult
  | ok
  | dialFailed (msg : String)
  | bindFailed (msg : String)
  | modifyFailed (msg : String)
deriving DecidableEq

/-- The bytes of the Go string literal `"512"`. -/
def str512 : List Nat := [53, 49, 50]

/-- `UpdateUserPassword` (src/ldap/operations.go, 216–248).  Returns the
function result together with the list of wire actions performed, in
order.  Note the hard-coded `"ldap"` scheme of the dial and that
`client.isSSLMode` is never consulted. -/
def UpdateUserPassword (client : LDAPClient) (oracle : PwOracle)
    (userDN : String) (newPassword : List Nat) : PwResult × List WireEvent :=
  match oracle.dialErr with
  | some e => (.dialFailed e, [.dial "ldap" client.Host client.Port true])
  | none =>
    match oracle.bindErr with
    | some e => (.bindFailed e,
        [.dial "ldap" client.Host client.Port true,
         .bind client.BindDN client.BindPassword])
    | none =>
      match oracle.modifyErr with
      | some e => (.modifyFailed e,
          [.dial "ldap" client.Host client.Port true,
           .bind client.BindDN client.BindPassword,
           .modify ⟨userDN, [⟨"unicodePwd", [EncodePassword newPassword]⟩,
                             ⟨"userAccountControl", [str512]⟩]⟩])
      | none => (.ok,
          [.dial "ldap" client.Host client.Port true,
           .bind client.BindDN client.BindPassword,
           .modify ⟨userDN, [⟨"unicodePwd", [EncodePassword newPassword]⟩,
                             ⟨"userAccountControl", [str512]⟩]⟩])

/-- The modify requests among a list of wire events. -/
def modifiesOf (evs : List WireEvent) : List ModifyRequest :=
  evs.filterMap fun e =>
    match e with
    | .modify r => some r
    | _ => none

/-- **C2** (code bug): `UpdateUserPassword` over a plaintext (non-TLS)
session does *not* return a refusal and *does* send `unicodePwd`: on a
client configured without TLS it succeeds, dialing with the `ldap` URL
scheme — a plaintext transport, since `DialWithTLSConfig` only applies to
`ldaps` — and issuing the password modify over that connection.  This
contradicts the function's own `创建SSL连接` (create SSL connection)
comment and the spec's required TLS refusal. -/
theorem updateUserPassword_plaintext_no_refusal :
    (UpdateUserPassword ⟨"dc1.corp", 389, "CN=admin,DC=corp", "adminpw", false⟩
      ⟨none, none, none⟩ "CN=u,DC=corp" [120]).1 = .ok ∧
    (UpdateUserPassword ⟨"dc1.corp", 389, "CN=admin,DC=corp", "adminpw", false⟩
      ⟨none, none, none⟩ "CN=u,DC=corp" [120]).2 =
      [.dial "ldap" "dc1.corp" 389 true,
       .bind "CN=admin,DC=corp" "adminpw",
       .modify ⟨"CN=u,DC=corp", [⟨"unicodePwd", [EncodePassword [120]]⟩,
                                 ⟨"userAccountControl", [str512]⟩]⟩] ∧
    dialUsesTLS "ldap" = false :=
  ⟨rfl, rfl, rfl⟩

/-- **C10**: Whenever `UpdateUserPassword` succeeds, it sent exactly one
modify request, on the target DN, and that request replaced exactly two
attributes: `unicodePwd` with the encoded password, and
`userAccountControl` with `"512"` — no other attribute is modified. -/
theorem updateUserPassword_exact_replaces (client : LDAPClient)
    (oracle : PwOracle) (userDN : String) (newPassword : List Nat)
    (h : (UpdateUserPassword client oracle userDN newPassword).1 = .ok) :
    modifiesOf (UpdateUserPassword client oracle userDN newPassword).2 =
      [⟨userDN, [⟨"unicodePwd", [EncodePassword newPassword]⟩,
                 ⟨"userAccountControl", [str512]⟩]⟩] := by
  unfold UpdateUserPassword at h ⊢
  rcases hd : oracle.dialErr with _ | e
  · rcases hb : oracle.bindErr with _ | e
    · rcases hm : oracle.modifyErr with _ | e
      · simp [hd, hb, hm, modifiesOf]
      · rw [hd, hb, hm] at h
        simp at h
    · rw [hd, hb] at h
      simp at h
  · rw [hd] at h
    simp at h

/-- Witness for C10: a concrete all-success run. -/
theorem updateUserPassword_exact_replaces_witness :
    (UpdateUserPassword ⟨"h", 389, "b", "s", true⟩ ⟨none, none, none⟩
      "CN=u,DC=corp" [97]).1 = .ok ∧
    modifiesOf (UpdateUserPassword ⟨"h", 389, "b", "s", true⟩ ⟨none, none, none⟩
      "CN=u,DC=corp" [97]).2 =
      [⟨"CN=u,DC=corp", [⟨"unicodePwd", [EncodePassword [97]]⟩,
                         ⟨"userAccountControl", [str512]⟩]⟩] :=
  ⟨rfl, updateUserPassword_exact_replaces ⟨"h", 389, "b", "s", true⟩
    ⟨none, none, none⟩ "CN=u,DC=corp" [97] rfl⟩

/-! ## DN path resolver and move operation
(src/ldap/operations.go `EnsureDNExists` 43–142, `MoveUser` 145–176;
src/unnamed/part_000 `CreateDN` 177–215)

A distinguished name is modelled as its list of comma-separated
components (`strings.Split(dn, ",")`), most specific first; the level at
component index `i` is `strings.Join(parts[i:], ",")`, i.e. `parts.drop i`.
The server is abstracted as an interface over a state type `σ`: errors
are LDAP result codes (`32` = noSuchObject, `68` = entryAlreadyExists).
Each operation also returns a trace of the add requests (and for
`MoveUser`, the modify-DN request) it sent. -/

/-- A Go `error` return value: `nil` or an error message. -/
inductive OpResult
  | ok
  | err (msg : String)
deriving DecidableEq

/-- Go `strings.Split(s, sep)` for a single-character separator, on the
character list of `s`: the list of fields between occurrences of `sep`
(always at least one field). -/
def splitOnChar (sep : Char) : List Char → List (List Char)
  | [] => [[]]
  | c :: rest =>
    if c = sep then [] :: splitOnChar sep rest
    else
      match splitOnChar sep rest with
      | [] => [[c]]
      | f :: r => (c :: f) :: r

/-- Go `strings.ToLower` on one character code, restricted to ASCII — the
only case exercised by the `cn`/`ou`/`dc` comparison in `EnsureDNExists`. -/
def asciiLower (n : Nat) : Nat :=
  if 65 ≤ n ∧ n ≤ 90 then n + 32 else n

/-- The lower-cased character codes of a component's attribute-type field,
modelling `strings.ToLower(partType)`. -/
def lowerCodes (cs : List Char) : List Nat :=
  cs.map (fun c => asciiLower c.toNat)

/-- An LDAP add request: target DN plus the attributes set on it. -/
structure AddRequest where
  dn : List String
  attrs : List (String × List String)
deriving DecidableEq

/-- An LDAP modify-DN request as built by `ldap.NewModifyDNRequest(oldDN,
newRDN, deleteOldRDN, newSuperior)`. -/
structure ModifyDNRequest where
  dn : List String
  newRDN : String
  deleteOldRDN : Bool
  newSuperior : List String
deriving DecidableEq

/-- The directory server as seen by the DN-tree operations, over an
abstract server state `σ`.  `none` means success; `some code` is the LDAP
result code of a failure. -/
structure DirServer (σ : Type) where
  getConn : σ → Option Nat
  search : σ → List String → Option Nat
  add : σ → AddRequest → Option Nat × σ
  modifyDN : σ → ModifyDNRequest → Option Nat × σ

/-- The component parsing of `EnsureDNExists`:
`strings.Contains(currentPart, "=")` (else the 无效 error), then
`partType := strings.Split(currentPart, "=")[0]` lower-cased and switched
against `cn` / `ou` (default: the 不支持 error), with
`partName := strings.Split(currentPart, "=")[1]`. -/
inductive ComponentKind
  | container (name : String)
  | orgUnit (name : String)
  | noEquals
  | unsupported
deriving DecidableEq

/-- Parse one DN component the way the creation loop of `EnsureDNExists`
does (src/ldap/operations.go, 106–128). -/
def parseComponent (part : String) : ComponentKind :=
  if (splitOnChar '=' part.toList).length < 2 then .noEquals
  else if lowerCodes ((splitOnChar '=' part.toList).getD 0 []) = [99, 110] then
    .container (String.mk ((splitOnChar '=' part.toList).getD 1 []))
  else if lowerCodes ((splitOnChar '=' part.toList).getD 0 []) = [111, 117] then
    .orgUnit (String.mk ((splitOnChar '=' part.toList).getD 1 []))
  else .unsupported

/-- One iteration of the creation loop of `EnsureDNExists` at component
index `i`: base-scope search of the level
(`currentDN = strings.Join(parts[i:], ",")`); on `noSuchObject`, parse
`parts[i]` and add the level as a `container` (`cn`) or
`organizationalUnit` (`ou`). -/
def ensureLevel {σ : Type} (srv : DirServer σ) (parts : List String) (i : Nat)
    (s : σ) : OpResult × σ × List AddRequest :=
  match srv.search s (parts.drop i) with
  | none => (.ok, s, [])
  | some code =>
    if code ≠ 32 then (.err "检查DN级别存在性失败", s, [])
    else
      match parseComponent (parts.getD i "") with
      | .noEquals => (.err "无效的DN部分", s, [])
      | .container name =>
        match srv.add s ⟨parts.drop i,
            [("objectClass", ["container"]), ("cn", [name])]⟩ with
        | (some _, s') => (.err "创建DN部分失败", s',
            [⟨parts.drop i, [("objectClass", ["container"]), ("cn", [name])]⟩])
        | (none, s') => (.ok, s',
            [⟨parts.drop i, [("objectClass", ["container"]), ("cn", [name])]⟩])
      | .orgUnit name =>
        match srv.add s ⟨parts.drop i,
            [("objectClass", ["organizationalUnit"]), ("ou", [name])]⟩ with
        | (some _, s') => (.err "创建DN部分失败", s',
            [⟨parts.drop i, [("objectClass", ["organizationalUnit"]), ("ou", [name])]⟩])
        | (none, s') => (.ok, s',
            [⟨parts.drop i, [("objectClass", ["organizationalUnit"]), ("ou", [name])]⟩])
      | .unsupported => (.err "不支持的DN部分类型", s, [])

/-- The loop `for i := len(parts) - 2; i >= 0; i--` of `EnsureDNExists`,
processing component indices `i, i-1, …, 0` top-down. -/
def ensureFrom {σ : Type} (srv : DirServer σ) (parts : List String) :
    Nat → σ → OpResult × σ × List AddRequest
  | 0, s => ensureLevel srv parts 0 s
  | i + 1, s =>
    match ensureLevel srv parts (i + 1) s with
    | (.ok, s', tr) =>
      match ensureFrom srv parts i s' with
      | (res, s'', tr') => (res, s'', tr ++ tr')
    | (.err e, s', tr) => (.err e, s', tr)

/-- `EnsureDNExists` (src/ldap/operations.go, 43–142): connection check,
base-scope search of the target; if the target is absent (result 32),
split the DN and create the missing levels top-down. -/
def EnsureDNExists {σ : Type} (srv : DirServer σ) (s : σ)
    (targetDN : List String) : OpResult × σ × List AddRequest :=
  match srv.getConn s with
  | some _ => (.err "确保DN存在时连接失败", s, [])
  | none =>
    match srv.search s targetDN with
    | none => (.ok, s, [])
    | some code =>
      if code ≠ 32 then (.err "检查DN存在性失败", s, [])
      else if targetDN.length ≤ 1 then (.err "无效的DN格式", s, [])
      else ensureFrom srv targetDN (targetDN.length - 2) s

/-- One iteration of the loop of `CreateDN` (src/unnamed/part_000,
192–211): add the level as a `container` with no prior search; an add
failure with result code 68 (`entryAlreadyExists`) is treated as success
and the loop continues. -/
def createLevel {σ : Type} (srv : DirServer σ) (parts : List String) (i : Nat)
    (s : σ) : OpResult × σ × List AddRequest :=
  let req : AddRequest := ⟨parts.drop i, [("objectClass", ["container"])]⟩
  match srv.add s req with
  | (some code, s') =>
    if code = 68 then (.ok, s', [req])
    else (.err "创建DN部分失败", s', [req])
  | (none, s') => (.ok, s', [req])

/-- The loop `for i := len(parts) - 1; i >= 0; i--` of `CreateDN`. -/
def createFrom {σ : Type} (srv : DirServer σ) (parts : List String) :
    Nat → σ → OpResult × σ × List AddRequest
  | 0, s => createLevel srv parts 0 s
  | i + 1, s =>
    match createLevel srv parts (i + 1) s with
    | (.ok, s', tr) =>
      match createFrom srv parts i s' with
      | (res, s'', tr') => (res, s'', tr ++ tr')
    | (.err e, s', tr) => (.err e, s', tr)

/-- `CreateDN` (src/unnamed/part_000, 177–215). -/
def CreateDN {σ : Type} (srv : DirServer σ) (s : σ) (dn : List String) :
    OpResult × σ × List AddRequest :=
  match srv.getConn s with
  | some _ => (.err "创建DN时连接失败", s, [])
  | none =>
    if dn.length = 0 then (.err "无效的DN格式", s, [])
    else createFrom srv dn (dn.length - 1) s

/-- `MoveUser` (src/ldap/operations.go, 145–176): split both DNs with
`strings.SplitN(dn, ",", 2)`; take the *old* DN's first component as the
relative name (`oldRDN := oldParts[0]`) and the *new* DN's remainder as
the new superior; ensure the new parent exists; issue one modify-DN
request with delete-old-RDN set. -/
def MoveUser {σ : Type} (srv : DirServer σ) (s : σ)
    (oldDN newDN : List String) :
    OpResult × σ × List AddRequest × Option ModifyDNRequest :=
  match srv.getConn s with
  | some _ => (.err "移动用户时连接失败", s, [], none)
  | none =>
    if oldDN.length < 2 ∨ newDN.length < 2 then (.err "无效的DN格式", s, [], none)
    else
      match EnsureDNExists srv s newDN.tail with
      | (.err _, s', tr) => (.err "确保目标路径存在失败", s', tr, none)
      | (.ok, s', tr) =>
        match srv.modifyDN s' ⟨oldDN, oldDN.headD "", true, newDN.tail⟩ with
        | (some _, s'') => (.err "移动操作失败", s'', tr,
            some ⟨oldDN, oldDN.headD "", true, newDN.tail⟩)
        | (none, s'') => (.ok, s'', tr,
            some ⟨oldDN, oldDN.headD "", true, newDN.tail⟩)

/-! ### A deterministic in-memory directory server -/

/-- Base-scope existence search on the in-memory directory: success iff
the DN is present, otherwise `noSuchObject` (32). -/
def honestSearch (dir : List (List String)) (dn : List String) : Option Nat :=
  if dn ∈ dir then none else some 32

/-- Add on the in-memory directory: `entryAlreadyExists` (68) for a
present DN, `noSuchObject` (32) when the parent is missing, success
otherwise. -/
def honestAdd (dir : List (List String)) (req : AddRequest) :
    Option Nat × List (List String) :=
  if req.dn ∈ dir then (some 68, dir)
  else if req.dn.tail ≠ [] ∧ req.dn.tail ∉ dir then (some 32, dir)
  else (none, req.dn :: dir)

/-- Modify-DN on the in-memory directory: relocate a present entry to
`newRDN` under `newSuperior`, `noSuchObject` (32) otherwise. -/
def honestModifyDN (dir : List (List String)) (req : ModifyDNRequest) :
    Option Nat × List (List String) :=
  if req.dn ∈ dir then (none, (req.newRDN :: req.newSuperior) :: dir.erase req.dn)
  else (some 32, dir)

/-- The deterministic in-memory directory server. -/
def honestServer : DirServer (List (List String)) :=
  ⟨fun _ => none, honestSearch, honestAdd, honestModifyDN⟩

/-- A server as seen during a lost race: every search reports
`noSuchObject` (32) and every add reports `entryAlreadyExists` (68),
as when a concurrent creator adds each level between the search and
the add. -/
def racyServer : DirServer Unit :=
  ⟨fun _ => none, fun _ _ => some 32, fun s _ => (some 68, s),
   fun s _ => (some 32, s)⟩

/-! ### Lemmas: a successful `EnsureDNExists` leaves the target present -/

theorem honestAdd_none_state (dir : List (List String)) (req : AddRequest)
    (s' : List (List String)) (ha : honestAdd dir req = (none, s')) :
    s' = req.dn :: dir := by
  unfold honestAdd at ha
  split at ha
  · simp at ha
  · split at ha
    · simp at ha
    · simpa using ha.symm

theorem ensureLevel_ok_mem (parts : List String) (i : Nat)
    (s : List (List String))
    (h : (ensureLevel honestServer parts i s).1 = .ok) :
    parts.drop i ∈ (ensureLevel honestServer parts i s).2.1 := by
  rcases hE : ensureLevel honestServer parts i s with ⟨res, s2, tr⟩
  rw [hE] at h
  simp only at h
  subst h
  show parts.drop i ∈ s2
  rw [ensureLevel] at hE
  split at hE
  · -- search found the level: state unchanged
    rename_i heq
    have h2 : s = s2 := by
      have := congrArg (fun p => p.2.1) hE
      simpa using this
    subst h2
    by_cases hmem : parts.drop i ∈ s
    · exact hmem
    · have hs : honestServer.search s (parts.drop i) = some 32 := by
        simp [honestServer, honestSearch, hmem]
      rw [hs] at heq
      simp at heq
  · -- search missed: the level is created
    rename_i code heq
    split at hE
    · simp at hE
    · split at hE
      · simp at hE
      · rename_i name
        split at hE
        · simp at hE
        · rename_i s' hadd
          have h2 : s' = s2 := by
            have := congrArg (fun p => p.2.1) hE
            simpa using this
          subst h2
          rw [honestAdd_none_state s _ _ hadd]
          exact List.mem_cons_self _ _
      · rename_i name
        split at hE
        · simp at hE
        · rename_i s' hadd
          have h2 : s' = s2 := by
            have := congrArg (fun p => p.2.1) hE
            simpa using this
          subst h2
          rw [honestAdd_none_state s _ _ hadd]
          exact List.mem_cons_self _ _
      · simp at hE

theorem ensureFrom_ok_mem (parts : List String) :
    ∀ (i : Nat) (s : List (List String)),
      (ensureFrom honestServer parts i s).1 = .ok →
      parts ∈ (ensureFrom honestServer parts i s).2.1 := by
  intro i
  induction i with
  | zero =>
    intro s h
    have := ensureLevel_ok_mem parts 0 s
    simp only [ensureFrom, List.drop_zero] at this h ⊢
    exact this h
  | succ i ih =>
    intro s h
    rcases hE : ensureFrom honestServer parts (i + 1) s with ⟨res, s2, tr⟩
    rw [hE] at h
    simp only at h
    subst h
    show parts ∈ s2
    rw [ensureFrom] at hE
    split at hE
    · -- the level step succeeded; the tail loop decides the result
      rename_i s' tr1 heqL
      rcases hF : ensureFrom honestServer parts i s' with ⟨res2, s'', tr'⟩
      rw [hF] at hE
      simp only [] at hE
      have h1 : res2 = .ok := by
        have := congrArg (fun p => p.1) hE
        simpa using this
      have h2 : s'' = s2 := by
        have := congrArg (fun p => p.2.1) hE
        simpa using this
      subst h2
      have := ih s'
      rw [hF, h1] at this
      exact this rfl
    · simp at hE

theorem ensureDNExists_ok_mem (s : List (List String)) (t : List String)
    (h : (EnsureDNExists honestServer s t).1 = .ok) :
    t ∈ (EnsureDNExists honestServer s t).2.1 := by
  rcases hE : EnsureDNExists honestServer s t with ⟨res, s2, tr⟩
  rw [hE] at h
  simp only at h
  subst h
  show t ∈ s2
  rw [EnsureDNExists] at hE
  split at hE
  · simp at hE
  · split at hE
    · -- target already present
      rename_i heq
      have h2 : s = s2 := by
        have := congrArg (fun p => p.2.1) hE
        simpa using this
      subst h2
      by_cases hmem : t ∈ s
      · exact hmem
      · have hs : honestServer.search s t = some 32 := by
          simp [honestServer, honestSearch, hmem]
        rw [hs] at heq
        simp at heq
    · rename_i code heq
      split at hE
      · simp at hE
      · split at hE
        · simp at hE
        · have := ensureFrom_ok_mem t (t.length - 2) s
          rw [hE] at this
          exact this rfl

/-- On a directory already containing `t`, `EnsureDNExists` returns at
the initial search: success, unchanged state, no add sent. -/
theorem ensureDNExists_found (d : List (List String)) (t : List String)
    (hmem : t ∈ d) :
    EnsureDNExists honestServer d t = (.ok, d, []) := by
  have hs : honestServer.search d t = none := by
    simp [honestServer, honestSearch, hmem]
  rw [EnsureDNExists]
  have hg : honestServer.getConn d = none := rfl
  rw [hg, hs]

/-- **C6**: For every directory state and DN on which a first call to
`EnsureDNExists` succeeded, a second immediate call also succeeds, performs
no add operation (empty request trace), and leaves the directory state
exactly as the first call left it. -/
theorem ensureDNExists_idempotent (s : List (List String)) (t : List String)
    (h : (EnsureDNExists honestServer s t).1 = .ok) :
    EnsureDNExists honestServer (EnsureDNExists honestServer s t).2.1 t =
      (.ok, (EnsureDNExists honestServer s t).2.1, []) := by
  exact ensureDNExists_found _ t (ensureDNExists_ok_mem s t h)

/-- Witness for C6: the first call creates `OU=a` under the existing
`DC=x`; the second call finds everything present and does nothing. -/
theorem ensureDNExists_idempotent_witness :
    (EnsureDNExists honestServer [["DC=x"]] ["OU=a", "DC=x"]).1 = .ok ∧
    EnsureDNExists honestServer
        (EnsureDNExists honestServer [["DC=x"]] ["OU=a", "DC=x"]).2.1
        ["OU=a", "DC=x"] =
      (.ok, (EnsureDNExists honestServer [["DC=x"]] ["OU=a", "DC=x"]).2.1, []) :=
  ⟨by decide, ensureDNExists_idempotent [["DC=x"]] ["OU=a", "DC=x"] (by decide)⟩

/-- **C4, counterexample**: in `EnsureDNExists` an add that fails with
result code 68 (`entryAlreadyExists`, the lost-race response: here the
server reports every level absent on search yet already existing on add)
makes the call return an error for that level — it is *not* treated as
success, contrary to the claim. -/
theorem ensureDNExists_add68_errors :
    (EnsureDNExists racyServer () ["CN=a", "DC=x"]).1 = .err "创建DN部分失败" ∧
    (EnsureDNExists racyServer () ["CN=a", "DC=x"]).2.2 =
      [⟨["CN=a", "DC=x"], [("objectClass", ["container"]), ("cn", ["a"])]⟩] := by
  decide

/-- **C4, amended**: the already-exists tolerance lives in `CreateDN`
(src/unnamed/part_000), not `EnsureDNExists`: during `CreateDN`, every
level whose add fails with result code 68 is treated as successfully
created and processing continues to the next level — against a server
reporting 68 for every level, `CreateDN` succeeds and attempts all
levels.  (`EnsureDNExists` instead returns an error whenever an add
fails, including code 68 — see the counterexample.) -/
theorem createDN_tolerates_already_exists (dn : List String) (h : dn ≠ []) :
    (CreateDN racyServer () dn).1 = .ok ∧
    (CreateDN racyServer () dn).2.2.length = dn.length := by
  have loop : ∀ i, (createFrom racyServer dn i ()).1 = .ok ∧
      (createFrom racyServer dn i ()).2.2.length = i + 1 := by
    intro i
    induction i with
    | zero => exact ⟨rfl, rfl⟩
    | succ i ih =>
      have hlev : createLevel racyServer dn (i + 1) () =
          (.ok, (), [⟨dn.drop (i + 1), [("objectClass", ["container"])]⟩]) := rfl
      rcases hF : createFrom racyServer dn i () with ⟨res2, s2, tr2⟩
      rw [hF] at ih
      obtain ⟨ih1, ih2⟩ := ih
      simp only at ih1 ih2
      refine ⟨?_, ?_⟩ <;>
        (rw [createFrom, hlev]; simp only []; rw [hF]; simp [ih1, ih2])
  have hlen : dn.length ≠ 0 := by
    intro h0
    exact h (List.length_eq_zero.mp h0)
  rcases hL : createFrom racyServer dn (dn.length - 1) () with ⟨res, s2, tr⟩
  have lp := loop (dn.length - 1)
  rw [hL] at lp
  obtain ⟨lp1, lp2⟩ := lp
  simp only at lp1 lp2
  have hg : racyServer.getConn () = none := rfl
  refine ⟨?_, ?_⟩
  · rw [CreateDN, hg, hL]
    simp [hlen, lp1]
  · rw [CreateDN, hg, hL]
    simp [hlen, lp2]
    omega

/-- Witness for the amended C4 at a concrete three-level DN. -/
theorem createDN_tolerates_already_exists_witness :
    (["CN=a", "OU=b", "DC=x"] : List String) ≠ [] ∧
    (CreateDN racyServer () ["CN=a", "OU=b", "DC=x"]).1 = .ok ∧
    (CreateDN racyServer () ["CN=a", "OU=b", "DC=x"]).2.2.length = 3 :=
  ⟨by decide, (createDN_tolerates_already_exists ["CN=a", "OU=b", "DC=x"] (by decide)).1,
   (createDN_tolerates_already_exists ["CN=a", "OU=b", "DC=x"] (by decide)).2⟩

/-- **C3, counterexample**: moving `CN=a,DC=x` to `CN=b,DC=x` succeeds but
the modify-DN request keeps the *old* relative name `CN=a` (not `CN=b`,
the leaf of the new DN), and afterwards no entry exists at the requested
new DN — `MoveUser` relocates but does not rename. -/
theorem moveUser_keeps_old_rdn :
    (MoveUser honestServer [["CN=a", "DC=x"], ["DC=x"]]
      ["CN=a", "DC=x"] ["CN=b", "DC=x"]).1 = .ok ∧
    (MoveUser honestServer [["CN=a", "DC=x"], ["DC=x"]]
      ["CN=a", "DC=x"] ["CN=b", "DC=x"]).2.2.2 =
      some ⟨["CN=a", "DC=x"], "CN=a", true, ["DC=x"]⟩ ∧
    (["CN=b", "DC=x"] : List String).headD "" = "CN=b" ∧
    ("CN=a" : String) ≠ "CN=b" ∧
    ["CN=b", "DC=x"] ∉ (MoveUser honestServer [["CN=a", "DC=x"], ["DC=x"]]
      ["CN=a", "DC=x"] ["CN=b", "DC=x"]).2.1 := by
  decide

/-- **C3, amended**: a successful `MoveUser(oldDN, newDN)` first runs
`EnsureDNExists` on `newDN`'s parent and then issues exactly one modify-DN
request with delete-old-RDN set whose new superior is the parent of
`newDN` but whose new relative name is the leaf component of **`oldDN`**:
the entry is relocated under `newDN`'s parent keeping its old name, and is
renamed to `newDN`'s leaf only when the two leaves coincide. -/
theorem moveUser_request_shape {σ : Type} (srv : DirServer σ) (s : σ)
    (oldDN newDN : List String)
    (h : (MoveUser srv s oldDN newDN).1 = .ok) :
    (EnsureDNExists srv s newDN.tail).1 = .ok ∧
    (MoveUser srv s oldDN newDN).2.2.1 = (EnsureDNExists srv s newDN.tail).2.2 ∧
    (MoveUser srv s oldDN newDN).2.2.2 =
      some ⟨oldDN, oldDN.headD "", true, newDN.tail⟩ := by
  rcases hE : MoveUser srv s oldDN newDN with ⟨res, s2, tr, mreq⟩
  rw [hE] at h
  simp only at h
  subst h
  rw [MoveUser] at hE
  split at hE
  · simp at hE
  · split at hE
    · simp at hE
    · split at hE
      · simp at hE
      · rename_i s' tr' heqE
        split at hE
        · simp at hE
        · rename_i s'' heqM
          have h2 : tr' = tr := by
            have := congrArg (fun p => p.2.2.1) hE
            simpa using this
          have h3 : mreq = some ⟨oldDN, oldDN.headD "", true, newDN.tail⟩ := by
            have := congrArg (fun p => p.2.2.2) hE
            simpa using this.symm
          subst h2
          refine ⟨by rw [heqE], by rw [heqE], by simpa using h3⟩

/-- Witness for the amended C3 at the counterexample's concrete input. -/
theorem moveUser_request_shape_witness :
    (MoveUser honestServer [["CN=a", "DC=x"], ["DC=x"]]
      ["CN=a", "DC=x"] ["CN=b", "DC=x"]).1 = .ok ∧
    (EnsureDNExists honestServer [["CN=a", "DC=x"], ["DC=x"]]
      (["CN=b", "DC=x"] : List String).tail).1 = .ok ∧
    (MoveUser honestServer [["CN=a", "DC=x"], ["DC=x"]]
      ["CN=a", "DC=x"] ["CN=b", "DC=x"]).2.2.2 =
      some ⟨["CN=a", "DC=x"], (["CN=a", "DC=x"] : List String).headD "", true,
            (["CN=b", "DC=x"] : List String).tail⟩ :=
  ⟨by decide,
   (moveUser_request_shape honestServer [["CN=a", "DC=x"], ["DC=x"]]
     ["CN=a", "DC=x"] ["CN=b", "DC=x"] (by decide)).1,
   (moveUser_request_shape honestServer [["CN=a", "DC=x"], ["DC=x"]]
     ["CN=a", "DC=x"] ["CN=b", "DC=x"] (by decide)).2.2⟩

/-! ## Group membership (src/ldap/group_management.go, src/ldap/operations.go)

The membership subsystem's state: the known user DNs and, for each group,
its `member` attribute values.  A user's `memberOf` attribute is the
server-maintained back-link: the groups whose member list contains the
user.  Failures are injected through an oracle; `removeErr` is keyed by
group DN so that a single removal can be made to fail. -/

/-- The directory state the group operations act on. -/
structure GroupDirectory where
  users : List String
  groups : List (String × List String)
deriving DecidableEq

/-- The `memberOf` attribute of a user: every group whose member list
contains the user, in directory order. -/
def memberOfList (d : GroupDirectory) (u : String) : List String :=
  (d.groups.filter (fun p => p.2.contains u)).map Prod.fst

/-- Failure injection for the group operations: `connErr` makes
`GetConnection`/`EnsureConnection` fail, `searchErr` makes the memberOf
search fail, `removeErr g` makes the modify-delete on group `g` fail,
`addErr` makes the modify-add fail. -/
structure GroupOracle where
  connErr : Option String
  searchErr : Option String
  removeErr : String → Option String
  addErr : Option String

/-- The oracle injecting no failures: every directory call behaves as the
in-memory server dictates. -/
def noFailures : GroupOracle :=
  ⟨none, none, fun _ => none, none⟩

/-- The result of `GetUserGroups`: the memberOf list, or an error. -/
inductive GroupsResult
  | ok (groups : List String)
  | err (msg : String)
deriving DecidableEq

/-- `GetUserGroups` (src/ldap/group_management.go, 213–244): base-scope
search on the user DN for its `memberOf` values; a search failure or an
absent user is an error. -/
def GetUserGroups (o : GroupOracle) (d : GroupDirectory) (userDN : String) :
    GroupsResult :=
  match o.connErr with
  | some e => .err ("获取用户组时连接失败: " ++ e)
  | none =>
    match o.searchErr with
    | some e => .err ("搜索用户组失败: " ++ e)
    | none =>
      if userDN ∈ d.users then .ok (memberOfList d userDN)
      else .err ("未找到用户: " ++ userDN)

/-- Server-side effect of a successful modify-delete of `member: userDN`
on group `groupDN`: the value disappears from every entry of that DN. -/
def eraseMember (groups : List (String × List String)) (userDN groupDN : String) :
    List (String × List String) :=
  groups.map (fun p => if p.1 = groupDN then (p.1, p.2.filter (fun m => m ≠ userDN)) else p)

/-- Server-side effect of a successful modify-add of `member: userDN` on
group `groupDN`. -/
def appendMember (groups : List (String × List String)) (userDN groupDN : String) :
    List (String × List String) :=
  groups.map (fun p => if p.1 = groupDN then (p.1, p.2 ++ [userDN]) else p)

/-- `RemoveUserFromGroup` (src/ldap/group_management.go, 188–210): one
modify-delete of the `member` value; any failure is returned.  The server
fails the delete when the group or the member value is absent. -/
def RemoveUserFromGroup (o : GroupOracle) (d : GroupDirectory)
    (userDN groupDN : String) : OpResult × GroupDirectory :=
  match o.connErr with
  | some e => (.err ("从组中移除用户时连接失败: " ++ e), d)
  | none =>
    match o.removeErr groupDN with
    | some e => (.err ("从组中移除用户失败: " ++ e), d)
    | none =>
      if ∃ p ∈ d.groups, p.1 = groupDN ∧ userDN ∈ p.2 then
        (.ok, ⟨d.users, eraseMember d.groups userDN groupDN⟩)
      else (.err "从组中移除用户失败: 无此属性值", d)

/-- `AddUserToGroup` (src/ldap/group_management.go, 161–186): one
modify-add of the `member` value; a server reply of code 68
(`entryAlreadyExists`, the user is already a member) is ignored and
treated as success. -/
def AddUserToGroup (o : GroupOracle) (d : GroupDirectory)
    (userDN groupDN : String) : OpResult × GroupDirectory :=
  match o.connErr with
  | some e => (.err ("添加用户到组时连接失败: " ++ e), d)
  | none =>
    match o.addErr with
    | some e => (.err ("添加用户到组失败: " ++ e), d)
    | none =>
      if groupDN ∈ d.groups.map Prod.fst then
        if ∃ p ∈ d.groups, p.1 = groupDN ∧ userDN ∈ p.2 then
          (.ok, d)
        else (.ok, ⟨d.users, appendMember d.groups userDN groupDN⟩)
      else (.err "添加用户到组失败: 对象不存在", d)

/-- The loop of `RemoveUserFromAllGroups`: remove the user from each
listed group in turn; an individual failure is logged and the loop
continues (`// 继续处理其他组`), so only the state effect remains. -/
def removeLoop (o : GroupOracle) (u : String) :
    List String → GroupDirectory → GroupDirectory
  | [], d => d
  | g :: rest, d => removeLoop o u rest (RemoveUserFromGroup o d u g).2

/-- `RemoveUserFromAllGroups` (src/ldap/group_management.go, 247–267):
fetch the memberOf list (failure propagates), then remove the user from
each group, ignoring individual removal failures, and return success. -/
def RemoveUserFromAllGroups (o : GroupOracle) (d : GroupDirectory)
    (userDN : String) : OpResult × GroupDirectory :=
  match GetUserGroups o d userDN with
  | .err e => (.err ("获取用户组失败: " ++ e), d)
  | .ok groups => (.ok, removeLoop o userDN groups d)

/-- `HandleGroupMembership` (src/ldap/operations.go, 251–268): ensure the
connection, remove the user from all its current groups, then add it to
the target group. -/
def HandleGroupMembership (o : GroupOracle) (d : GroupDirectory)
    (userDN groupDN : String) : OpResult × GroupDirectory :=
  match o.connErr with
  | some e => (.err ("连接失败: " ++ e), d)
  | none =>
    match RemoveUserFromAllGroups o d userDN with
    | (.err e, d1) => (.err ("移除现有用户组失败: " ++ e), d1)
    | (.ok, d1) =>
      match AddUserToGroup o d1 userDN groupDN with
      | (.err e, d2) => (.err ("添加用户到组失败: " ++ e), d2)
      | (.ok, d2) => (.ok, d2)

/-- What the subtree search inside `SearchUser` produces: a list of entry
DNs, or a failure. -/
inductive SearchOutcome
  | entries (dns : List String)
  | fail (msg : String)
deriving DecidableEq

/-- `SearchUser` (src/ldap/operations.go, 315–347): subtree search by
`cn`; a connection failure or a search failure is reported through the
status callback and the function returns `(false, "")` — the same value
as a genuinely absent user. -/
def SearchUser (connErr : Option String) (sr : SearchOutcome)
    (userName searchBase : String) : Bool × String :=
  match connErr with
  | some _ => (false, "")
  | none =>
    match sr with
    | .fail _ => (false, "")
    | .entries [] => (false, "")
    | .entries (dn :: _) => (true, dn)

/-! ### Lemmas: the removal loop clears every membership of the user -/

theorem removeUserFromGroup_noFail_state (d : GroupDirectory) (u g : String) :
    ((¬∃ p ∈ d.groups, p.1 = g ∧ u ∈ p.2) ∧
      (RemoveUserFromGroup noFailures d u g).2 = d) ∨
    ((∃ p ∈ d.groups, p.1 = g ∧ u ∈ p.2) ∧
      (RemoveUserFromGroup noFailures d u g).2 =
        ⟨d.users, eraseMember d.groups u g⟩) := by
  by_cases hex : ∃ p ∈ d.groups, p.1 = g ∧ u ∈ p.2
  · right
    refine ⟨hex, ?_⟩
    rw [RemoveUserFromGroup]
    simp [noFailures, hex]
  · left
    refine ⟨hex, ?_⟩
    rw [RemoveUserFromGroup]
    simp [noFailures, hex]

theorem mem_eraseMember (groups : List (String × List String)) (u g : String)
    (p : String × List String) (hp : p ∈ eraseMember groups u g) :
    (p.1 = g ∧ u ∉ p.2) ∨ (p.1 ≠ g ∧ p ∈ groups) := by
  rw [eraseMember, List.mem_map] at hp
  obtain ⟨q, hq, hpq⟩ := hp
  by_cases hqg : q.1 = g
  · left
    rw [if_pos hqg] at hpq
    subst hpq
    refine ⟨hqg, ?_⟩
    intro hu
    rw [List.mem_filter] at hu
    simp at hu
  · right
    rw [if_neg hqg] at hpq
    subst hpq
    exact ⟨hqg, hq⟩

theorem removeLoop_clears (u : String) :
    ∀ (L : List String) (d : GroupDirectory),
      (∀ p ∈ d.groups, u ∈ p.2 → p.1 ∈ L) →
      ∀ p ∈ (removeLoop noFailures u L d).groups, u ∉ p.2 := by
  intro L
  induction L with
  | nil =>
    intro d hpre p hp hu
    exact absurd (hpre p hp hu) (List.not_mem_nil _)
  | cons g rest ih =>
    intro d hpre
    rw [removeLoop]
    apply ih
    intro p hp hu
    rcases removeUserFromGroup_noFail_state d u g with ⟨hni, hst⟩ | ⟨_, hst⟩
    · -- the delete on g failed: no g-entry carried u, state unchanged
      rw [hst] at hp
      have := hpre p hp hu
      rcases List.mem_cons.mp this with hpg | hpr
      · exact absurd ⟨p, hp, hpg, hu⟩ hni
      · exact hpr
    · -- the delete on g succeeded: every g-entry lost u
      rw [hst] at hp
      rcases mem_eraseMember _ _ _ _ hp with ⟨_, hnu⟩ | ⟨hne2, hpd⟩
      · exact absurd hu hnu
      · have := hpre p hpd hu
        rcases List.mem_cons.mp this with hpg | hpr
        · exact absurd hpg hne2
        · exact hpr

theorem toFinset_eq_singleton (l : List String) (g : String) (hg : g ∈ l)
    (hall : ∀ x ∈ l, x = g) : l.toFinset = {g} := by
  ext a
  simp only [List.mem_toFinset, Finset.mem_singleton]
  exact ⟨fun ha => hall a ha, fun ha => ha ▸ hg⟩

theorem memberOfList_after_add (d1 : GroupDirectory) (u g : String)
    (hclear : ∀ p ∈ d1.groups, u ∉ p.2)
    (hkey : g ∈ d1.groups.map Prod.fst) :
    (memberOfList ⟨d1.users, appendMember d1.groups u g⟩ u).toFinset = {g} := by
  apply toFinset_eq_singleton
  · rw [List.mem_map] at hkey
    obtain ⟨q, hq, hqg⟩ := hkey
    rw [memberOfList, List.mem_map]
    refine ⟨(g, q.2 ++ [u]), ?_, rfl⟩
    rw [List.mem_filter]
    constructor
    · rw [appendMember, List.mem_map]
      refine ⟨q, hq, ?_⟩
      rw [if_pos hqg, hqg]
    · simp
  · intro x hx
    rw [memberOfList, List.mem_map] at hx
    obtain ⟨p', hp', hx⟩ := hx
    rw [List.mem_filter] at hp'
    obtain ⟨hp'mem, hp'c⟩ := hp'
    rw [appendMember, List.mem_map] at hp'mem
    obtain ⟨q, hq, hpq⟩ := hp'mem
    by_cases hqg : q.1 = g
    · rw [if_pos hqg] at hpq
      subst hpq
      subst hx
      exact hqg
    · rw [if_neg hqg] at hpq
      subst hpq
      exfalso
      have hu : u ∈ q.2 := by simpa using hp'c
      exact hclear q hq hu

/-- **C5, counterexample**: with the user in group `H` and the server
failing the removal from `H` (e.g. insufficient rights),
`HandleGroupMembership(u, G)` still returns success — the loop swallows
the failure — and afterwards the user's membership is `{G, H}`, not
exactly `{G}`. -/
theorem handleGroupMembership_swallowed_failure :
    (HandleGroupMembership
      ⟨none, none, fun g => if g = "H" then some "权限不足" else none, none⟩
      ⟨["U"], [("G", []), ("H", ["U"])]⟩ "U" "G").1 = .ok ∧
    memberOfList (HandleGroupMembership
      ⟨none, none, fun g => if g = "H" then some "权限不足" else none, none⟩
      ⟨["U"], [("G", []), ("H", ["U"])]⟩ "U" "G").2 "U" = ["G", "H"] ∧
    (["G", "H"] : List String) ≠ ["G"] :=
  ⟨by decide, by decide, by decide⟩

/-- **C5, amended**: when no underlying directory call fails, a successful
`HandleGroupMembership(u, G)` first removes `u` from every group listed in
its `memberOf` and then adds it to `G`, so afterwards `u`'s group
membership is exactly `{G}`; when an individual removal fails, the call
may still succeed with `u` remaining in other groups (see the
counterexample). -/
theorem handleGroupMembership_sole (d : GroupDirectory) (u g : String)
    (h : (HandleGroupMembership noFailures d u g).1 = .ok) :
    (memberOfList (HandleGroupMembership noFailures d u g).2 u).toFinset = {g} := by
  rcases hE : HandleGroupMembership noFailures d u g with ⟨res, d2⟩
  rw [hE] at h
  simp only at h
  subst h
  show (memberOfList d2 u).toFinset = {g}
  rw [HandleGroupMembership] at hE
  split at hE
  · simp at hE
  · split at hE
    · simp at hE
    · rename_i d1 heqR
      split at hE
      · simp at hE
      · rename_i d2' heqA
        have hd2 : d2' = d2 := by
          have := congrArg (fun p => p.2) hE
          simpa using this
        subst hd2
        rw [RemoveUserFromAllGroups] at heqR
        split at heqR
        · simp at heqR
        · rename_i groups heqG
          have hd1 : removeLoop noFailures u groups d = d1 := by
            have := congrArg (fun p => p.2) heqR
            simpa using this
          rw [GetUserGroups] at heqG
          split at heqG
          · simp at heqG
          · split at heqG
            · simp at heqG
            · split at heqG
              · have hgroups : memberOfList d u = groups := by
                  simpa using heqG
                have hclear : ∀ p ∈ d1.groups, u ∉ p.2 := by
                  rw [← hd1, ← hgroups]
                  exact removeLoop_clears u (memberOfList d u) d
                    (fun p hp hu => by
                      rw [memberOfList, List.mem_map]
                      refine ⟨p, ?_, rfl⟩
                      rw [List.mem_filter]
                      exact ⟨hp, by simpa using hu⟩)
                rw [AddUserToGroup] at heqA
                split at heqA
                · simp at heqA
                · split at heqA
                  · simp at heqA
                  · split at heqA
                    · split at heqA
                      · rename_i hkey hex
                        exfalso
                        obtain ⟨p, hp, hpg, hpu⟩ := hex
                        exact hclear p hp hpu
                      · rename_i hkey hnex
                        have hfin : (⟨d1.users, appendMember d1.groups u g⟩ : GroupDirectory) = d2' := by
                          have := congrArg (fun p => p.2) heqA
                          simpa using this
                        rw [← hfin]
                        exact memberOfList_after_add d1 u g hclear hkey
                    · simp at heqA
              · simp at heqG

/-- Witness for the amended C5: the user starts in `H`; after a
failure-free `HandleGroupMembership(U, G)` its membership is exactly
`{G}`. -/
theorem handleGroupMembership_sole_witness :
    (HandleGroupMembership noFailures
      ⟨["U"], [("G", []), ("H", ["U"])]⟩ "U" "G").1 = .ok ∧
    (memberOfList (HandleGroupMembership noFailures
      ⟨["U"], [("G", []), ("H", ["U"])]⟩ "U" "G").2 "U").toFinset = {"G"} :=
  ⟨by decide, handleGroupMembership_sole ⟨["U"], [("G", []), ("H", ["U"])]⟩
    "U" "G" (by decide)⟩

/-- **C8, counterexample**: two provisioning operations silently swallow
underlying failures.  `RemoveUserFromAllGroups` returns success with the
state unchanged although the removal from `H` failed, and `SearchUser`
returns the not-found value `(false, "")` when the search itself failed. -/
theorem provisioner_swallows_failures :
    (RemoveUserFromAllGroups
      ⟨none, none, fun g => if g = "H" then some "权限不足" else none, none⟩
      ⟨["U"], [("G", []), ("H", ["U"])]⟩ "U").1 = .ok ∧
    (RemoveUserFromAllGroups
      ⟨none, none, fun g => if g = "H" then some "权限不足" else none, none⟩
      ⟨["U"], [("G", []), ("H", ["U"])]⟩ "U").2 =
      ⟨["U"], [("G", []), ("H", ["U"])]⟩ ∧
    SearchUser none (.fail "网络错误") "bob" "DC=x" = (false, "") :=
  ⟨by decide, by decide, by decide⟩

/-- **C8, amended**: the provisioner propagates failures that precede the
removal loop — a failed memberOf fetch makes `RemoveUserFromAllGroups`
return that error — but once the list is fetched the loop swallows every
individual removal failure and returns success, and `SearchUser` reports
connection or search failures as the not-found value `(false, "")`. -/
theorem provisioner_error_reporting :
    (∀ (o : GroupOracle) (d : GroupDirectory) (u : String),
      o.connErr = none → o.searchErr = none → u ∈ d.users →
      (RemoveUserFromAllGroups o d u).1 = .ok) ∧
    (∀ (o : GroupOracle) (d : GroupDirectory) (u e : String),
      GetUserGroups o d u = .err e →
      (RemoveUserFromAllGroups o d u).1 = .err ("获取用户组失败: " ++ e)) ∧
    (∀ (ce : Option String) (msg userName searchBase : String),
      SearchUser ce (.fail msg) userName searchBase = (false, "")) := by
  refine ⟨?_, ?_, ?_⟩
  · intro o d u hc hs hu
    have hG : GetUserGroups o d u = .ok (memberOfList d u) := by
      rw [GetUserGroups, hc, hs, if_pos hu]
    rw [RemoveUserFromAllGroups, hG]
  · intro o d u e hG
    rw [RemoveUserFromAllGroups, hG]
  · intro ce msg userName searchBase
    cases ce <;> rfl

/-- Witness for the amended C8 at concrete inputs: a failure-free removal
run succeeds, a failed memberOf fetch propagates, and a failed search
reads as not-found. -/
theorem provisioner_error_reporting_witness :
    (RemoveUserFromAllGroups noFailures ⟨["U"], [("G", ["U"])]⟩ "U").1 = .ok ∧
    (RemoveUserFromAllGroups ⟨some "拒绝连接", none, fun _ => none, none⟩
      ⟨["U"], [("G", ["U"])]⟩ "U").1 =
      .err ("获取用户组失败: " ++ ("获取用户组时连接失败: " ++ "拒绝连接")) ∧
    SearchUser (some "网络") (.fail "超时") "bob" "DC=x" = (false, "") :=
  ⟨provisioner_error_reporting.1 noFailures ⟨["U"], [("G", ["U"])]⟩ "U" rfl rfl
      (by decide),
   provisioner_error_reporting.2.1 ⟨some "拒绝连接", none, fun _ => none, none⟩
      ⟨["U"], [("G", ["U"])]⟩ "U" ("获取用户组时连接失败: " ++ "拒绝连接") (by decide),
   provisioner_error_reporting.2.2 (some "网络") "超时" "bob" "DC=x"⟩

end LdapTest
